import Mathlib

/-!
Verification development for the `edc-form-runner` repository.

Shallow embedding of `src/edc_form_runners/form_runner.py` (class
`FormRunner`) and `src/edc_form_runners/utils.py` (`run_form_runners`,
`get_form_runner_issues`).

Modelling conventions:
* A Django model instance (`ModelObj`) carries its `__dict__` (the raw
  column values, field `dict`) and its full attribute namespace (field
  `attrs`, consulted by `getattr`).  Attribute access that would raise
  `AttributeError` is modelled by an `Option`/`Except.error` result.
* Related objects reachable through an attribute (a related visit, a
  panel, a foreign-key target, members of a many-to-many collection)
  are `SubObj`s with scalar string attributes; a many-to-many manager
  attribute holds the complete current related set, and `.all()`
  returns it.
* The Issue table is a `List Issue`; `Issue.objects.filter(**key).delete()`
  is `List.filter` on the negated key match and `Issue.objects.create`
  appends.
* The modelform is the external collaborator the spec describes: it is
  a function from the reconstructed payload and the instance to the
  per-field error mapping, each `ErrorList` represented by the string
  its `as_text()` renders.
* `html.unescape` is modelled on the standard named entities and
  `BeautifulSoup(...).text` as removal of `<...>` tag spans; both are
  identities on tag-free, entity-free text.
* Progress reporting (`tqdm`), `print` and the run timestamp are
  effect-free from the point of view of the stored data and are not
  modelled beyond the fields they stamp.
-/

namespace EdcFormRunners

set_option maxRecDepth 16384

/-- A Python attribute value as it appears in instance dicts and in the
reconstructed form payload. -/
structure SubObj where
  oid : Nat
  oattrs : List (String × String)
  deriving DecidableEq, Repr

inductive Value where
  | vStr : String → Value
  | vInt : Int → Value
  | vNone : Value
  | vObj : SubObj → Value
  | vList : List SubObj → Value
  deriving DecidableEq, Repr

/-- `str(x)` for the values we model.  `str(None)` is the string
`"None"`; object and queryset renderings are opaque. -/
def pyStr : Value → String
  | .vStr s => s
  | .vInt i => toString i
  | .vNone => "None"
  | .vObj o => "<object " ++ toString o.oid ++ ">"
  | .vList _ => "<queryset>"

/-- `.id` attribute access on a value: succeeds only on an object
(anything else raises `AttributeError`, which the caller catches). -/
def valueId : Value → Option Nat
  | .vObj o => some o.oid
  | _ => none

/-- Relation kind of a declared model field, as classified by
`isinstance(fld_cls, ...)` in `get_form_data`. -/
inductive FieldKind where
  | foreignKey
  | oneToOne
  | manyToMany
  | scalar
  deriving DecidableEq, Repr

structure FieldDecl where
  name : String
  kind : FieldKind
  related_model : String
  deriving DecidableEq, Repr

def FieldKind.isSingleRel : FieldKind → Bool
  | .foreignKey => true
  | .oneToOne => true
  | _ => false

/-- `model_obj._meta`: label, verbose name and declared fields. -/
structure ModelMeta where
  label_lower : String
  verbose_name : String
  fields : List FieldDecl
  deriving DecidableEq, Repr

/-- A persisted model instance.  `dict` is `__dict__` (raw column
values, including `*_id` columns and internal `_`-prefixed entries);
`attrs` is the attribute namespace `getattr` consults (descriptors
included, so related objects appear here).  The always-present audit
columns of the edc base model are plain structure fields. -/
structure ModelObj where
  id : Nat
  dict : List (String × Value)
  attrs : List (String × Value)
  meta : ModelMeta
  revision : String
  modified : String
  user_modified : String
  site : String
  deriving DecidableEq, Repr

/-- `getattr(m, name)` with `AttributeError` as `none`. -/
def getattrOpt (m : ModelObj) (name : String) : Option Value :=
  m.attrs.lookup name

/-- The database the foreign-key resolution of `get_form_data` queries:
object sets per model label. -/
def Db := List (String × List SubObj)

def dbGet (db : Db) (label : String) (oid : Nat) : Option SubObj :=
  match List.lookup label db with
  | some objs => objs.find? (fun o => o.oid = oid)
  | none => none

/-- Python `str.startswith`, over the character list. -/
def strStartsWith (s p : String) : Bool :=
  p.toList.isPrefixOf s.toList

/-- Python `str.endswith`, over the character list. -/
def strEndsWith (s p : String) : Bool :=
  p.toList.isSuffixOf s.toList

/-- Python slicing `s[:n]`. -/
def strTake (s : String) (n : Nat) : String :=
  ⟨s.toList.take n⟩

/-- Python `sep.join(items)`. -/
def strJoin (sep : String) : List String → String
  | [] => ""
  | [s] => s
  | s :: rest => s ++ (sep ++ strJoin sep rest)

/-- Python `dict.update` with a single key: replace the value if the
key is present, append otherwise. -/
def updateAssoc (l : List (String × Value)) (k : String) (v : Value) :
    List (String × Value) :=
  if l.any (fun kv => kv.1 = k) then
    l.map (fun kv => if kv.1 = k then (k, v) else kv)
  else
    l ++ [(k, v)]

/- ---------- html.unescape and BeautifulSoup(...).text ---------- -/

/-- The named/numeric entities we model of Python `html.unescape`
(the standard XML set and the non-breaking space). -/
def entityTable : List (String × Char) :=
  [("&amp;", Char.ofNat 38), ("&lt;", Char.ofNat 60),
   ("&gt;", Char.ofNat 62), ("&quot;", Char.ofNat 34),
   ("&#39;", Char.ofNat 39), ("&nbsp;", Char.ofNat 160)]

def matchEntity : List (String × Char) → List Char → Option (Char × List Char)
  | [], _ => none
  | (ent, ch) :: rest, cs =>
    if ent.toList.isPrefixOf cs then some (ch, cs.drop ent.length)
    else matchEntity rest cs

def unescapeAux : Nat → List Char → List Char
  | 0, cs => cs
  | _ + 1, [] => []
  | fuel + 1, c :: cs =>
    if c = Char.ofNat 38 then
      match matchEntity entityTable (c :: cs) with
      | some (ch, rest) => ch :: unescapeAux fuel rest
      | none => c :: unescapeAux fuel cs
    else c :: unescapeAux fuel cs

/-- Model of `html.unescape`, restricted to the entities of
`entityTable`; the identity on entity-free text. -/
def htmlUnescape (s : String) : String :=
  ⟨unescapeAux (s.length + 1) s.toList⟩

def stripTagsAux : Bool → List Char → List Char
  | _, [] => []
  | _, '<' :: rest => stripTagsAux true rest
  | true, '>' :: rest => stripTagsAux false rest
  | true, _ :: rest => stripTagsAux true rest
  | false, c :: rest => c :: stripTagsAux false rest

/-- Model of `BeautifulSoup(raw, "html.parser").text`: the text with
`<...>` tag spans removed. -/
def stripHtmlTags (s : String) : String :=
  ⟨stripTagsAux false s.toList⟩

/- ---------- the FormRunner ---------- -/

/-- The identity key `unique_opts` builds: the uniqueness scope that
the delete filter and the created Issue share. -/
structure UniqueOpts where
  label_lower : String
  panel_name : Option String
  verbose_name : String
  subject_identifier : Value
  visit_code : Value
  visit_code_sequence : Value
  visit_schedule_name : Value
  schedule_name : Value
  field_name : String
  deriving DecidableEq, Repr

/-- A row of the `Issue` table.  The identity-key columns are grouped
in `key`; the remaining columns are stamped as in `write_to_db`. -/
structure Issue where
  session_id : Nat
  session_datetime : String
  raw_message : String
  message : String
  short_message : String
  response : String
  src_id : Nat
  src_revision : String
  src_report_datetime : Value
  src_modified_datetime : String
  src_user_modified : String
  site : String
  extra_formfields : String
  exclude_formfields : String
  key : UniqueOpts
  deriving DecidableEq, Repr

/-- The construction state of a `FormRunner` (the modelform itself and
the queryset are passed separately: the modelform as the validation
function, the queryset as the materialized record list). -/
structure FormRunner where
  session_id : Nat
  session_datetime : String
  verbose : Bool
  extra_formfields : List String
  exclude_formfields : List String
  deriving Repr

/-- `get_panel_name`: `getattr(model_obj, "panel", None)` then
`getattr(panel, "name", None)`. -/
def get_panel_name (m : ModelObj) : Option String :=
  match getattrOpt m "panel" with
  | some (.vObj p) => p.oattrs.lookup "name"
  | _ => none

/-- Attribute read used by `unique_opts`: the read target is
`getattr(model_obj, "subject_visit", model_obj)`, so the attribute is
read from the related visit when that attribute exists (an
`AttributeError` when its value is not an object carrying the name),
and from the instance itself otherwise. -/
def visitAttr (m : ModelObj) (name : String) : Except String Value :=
  match getattrOpt m "subject_visit" with
  | some (.vObj sv) =>
    match sv.oattrs.lookup name with
    | some s => .ok (.vStr s)
    | none => .error ("AttributeError: " ++ name)
  | some _ => .error ("AttributeError: " ++ name)
  | none =>
    match getattrOpt m name with
    | some v => .ok v
    | none => .error ("AttributeError: " ++ name)

/-- `unique_opts(model_obj, fldname)`. -/
def unique_opts (m : ModelObj) (fldname : String) : Except String UniqueOpts := do
  let subject_identifier ← visitAttr m "subject_identifier"
  let visit_code ← visitAttr m "visit_code"
  let visit_code_sequence ← visitAttr m "visit_code_sequence"
  let visit_schedule_name ← visitAttr m "visit_schedule_name"
  let schedule_name ← visitAttr m "schedule_name"
  .ok { label_lower := m.meta.label_lower
        panel_name := get_panel_name m
        verbose_name := m.meta.verbose_name
        subject_identifier, visit_code, visit_code_sequence
        visit_schedule_name, schedule_name
        field_name := fldname }

/- ---------- get_form_data ---------- -/

/-- The opening dict comprehension of `get_form_data`: the instance's
`__dict__` without internal (`_`-prefixed) and raw foreign-key
(`_id`-suffixed) entries. -/
def initialData (m : ModelObj) : List (String × Value) :=
  m.dict.filter (fun kv => !strStartsWith kv.1 "_" && !strEndsWith kv.1 "_id")

/-- One iteration of the `for fld_cls in model_obj._meta.get_fields()`
loop: single-valued relations resolve the related instance by its id
(`AttributeError` caught, a failed database `get` is not); a
many-to-many field binds the complete current related set (no
exception handling); anything else is `pass`. -/
def resolveField (db : Db) (m : ModelObj) (data : List (String × Value))
    (fld : FieldDecl) : Except String (List (String × Value)) :=
  if fld.kind.isSingleRel then
    match (getattrOpt m fld.name).bind valueId with
    | none => .ok (updateAssoc data fld.name .vNone)
    | some oid =>
      match dbGet db fld.related_model oid with
      | some sub => .ok (updateAssoc data fld.name (.vObj sub))
      | none => .error ("DoesNotExist: " ++ fld.related_model)
  else if fld.kind = .manyToMany then
    match getattrOpt m fld.name with
    | some (.vList objs) => .ok (updateAssoc data fld.name (.vList objs))
    | _ => .error ("AttributeError: " ++ fld.name)
  else .ok data

def resolveFields (db : Db) (m : ModelObj) :
    List (String × Value) → List FieldDecl → Except String (List (String × Value))
  | data, [] => .ok data
  | data, fld :: rest => do
    let data' ← resolveField db m data fld
    resolveFields db m data' rest

/-- The related-visit step: `data.update(subject_visit=...)` with the
`AttributeError` fallback `data.update(subject_identifier=...)` (whose
own attribute read is not guarded). -/
def resolveVisit (m : ModelObj) (data : List (String × Value)) :
    Except String (List (String × Value)) :=
  match getattrOpt m "subject_visit" with
  | some v => .ok (updateAssoc data "subject_visit" v)
  | none =>
    match getattrOpt m "subject_identifier" with
    | some v => .ok (updateAssoc data "subject_identifier" v)
    | none => .error "AttributeError: subject_identifier"

/-- The closing loop over `self.extra_formfields`: a plain `getattr`
with no default and no exception handling. -/
def resolveExtras (m : ModelObj) :
    List (String × Value) → List String → Except String (List (String × Value))
  | data, [] => .ok data
  | data, f :: rest =>
    match getattrOpt m f with
    | some v => resolveExtras m (updateAssoc data f v) rest
    | none => .error ("AttributeError: " ++ f)

/-- `get_form_data(model_obj)`. -/
def get_form_data (db : Db) (r : FormRunner) (m : ModelObj) :
    Except String (List (String × Value)) := do
  let d1 ← resolveFields db m (initialData m) m.meta.fields
  let d2 ← resolveVisit m d1
  resolveExtras m d2 r.extra_formfields

/- ---------- write_to_db and run ---------- -/

/-- `write_to_db(fldname, errmsg, model_obj)`.  `errmsg` is the
`as_text()` rendering of the field's `ErrorList`.  The response read
catches `AttributeError` into `None` and then stores `str(response)`. -/
def write_to_db (r : FormRunner) (m : ModelObj) (fldname errmsg : String) :
    Except String Issue := do
  let raw_message := htmlUnescape errmsg
  let message := stripHtmlTags raw_message
  let response : Value := (getattrOpt m fldname).getD .vNone
  let key ← unique_opts m fldname
  .ok { session_id := r.session_id
        session_datetime := r.session_datetime
        raw_message, message
        short_message := strTake message 250
        response := pyStr response
        src_id := m.id
        src_revision := m.revision
        src_report_datetime := (getattrOpt m "report_datetime").getD .vNone
        src_modified_datetime := m.modified
        src_user_modified := m.user_modified
        site := m.site
        extra_formfields := strJoin "," r.extra_formfields
        exclude_formfields := strJoin "," r.exclude_formfields
        key }

/-- Python truthiness of the optional `field_name` / `panel_name`
filters (`None` and the empty string are falsy). -/
def truthyStr : Option String → Bool
  | some s => s != ""
  | none => false

/-- `if panel_name and panel_name != self.get_panel_name(model_obj)`. -/
def panelSkip (pn : Option String) (m : ModelObj) : Bool :=
  truthyStr pn && pn != get_panel_name m

/-- `elif field_name and fldname != field_name`. -/
def fieldSkip (fn : Option String) (fldname : String) : Bool :=
  truthyStr fn && some fldname != fn

/-- The inner loop of `run`: per erroring field, skip on a non-matched
filter, otherwise delete every Issue with the identity key and create
the replacement. -/
def processFields (r : FormRunner) (fn pn : Option String) (m : ModelObj) :
    List Issue → List (String × String) → Except String (List Issue)
  | store, [] => .ok store
  | store, (fldname, errmsg) :: rest =>
    if panelSkip pn m then processFields r fn pn m store rest
    else if fieldSkip fn fldname then processFields r fn pn m store rest
    else do
      let key ← unique_opts m fldname
      let issue ← write_to_db r m fldname errmsg
      processFields r fn pn m
        (store.filter (fun i => !(i.key = key)) ++ [issue]) rest

/-- One iteration of the outer loop of `run`: rebuild the payload, run
the modelform's validity check, drop excluded fields, and process the
remaining errors (the `if errors:` guard included). -/
def processRecord (db : Db)
    (validate : List (String × Value) → ModelObj → List (String × String))
    (r : FormRunner) (fn pn : Option String) (store : List Issue)
    (m : ModelObj) : Except String (List Issue) := do
  let data ← get_form_data db r m
  let errors := (validate data m).filter
    (fun kv => !(r.exclude_formfields.contains kv.1))
  if errors.isEmpty then .ok store
  else processFields r fn pn m store errors

/-- `run(field_name, panel_name)` over the materialized queryset. -/
def run (db : Db)
    (validate : List (String × Value) → ModelObj → List (String × String))
    (r : FormRunner) (fn pn : Option String) :
    List Issue → List ModelObj → Except String (List Issue)
  | store, [] => .ok store
  | store, m :: rest => do
    let store' ← processRecord db validate r fn pn store m
    run db validate r fn pn store' rest

/- ---------- utils.py: run_form_runners ---------- -/

/-- Outcome of `FormRunner(modelform_cls, model_cls).run()` for one
record type, as the batch loop observes it: success, a caught
exception class (`AttributeError` / `FieldError`), or any other
exception (which propagates). -/
inductive RunOutcome where
  | ok
  | attrError (msg : String)
  | fieldError (msg : String)
  | other (msg : String)
  deriving DecidableEq, Repr

/-- The process environment `run_form_runners` consults: the installed
app configs (name and model labels), `django_apps.get_model`, the
admin-site modelform registry (`get_modelform_cls`), and the outcome
of running each (modelform, model) pair. -/
structure BatchEnv where
  app_configs : List (String × List String)
  get_model : String → Option String
  modelform_registry : List (String × String)
  run_outcome : String → String → RunOutcome

/-- Python truthiness of the optional list arguments (`None` and the
empty list are falsy). -/
def truthyList : Option (List String) → Bool
  | some (_ :: _) => true
  | _ => false

/-- The model-selection prefix of `run_form_runners`: for app labels
the working list is reassigned (not extended) for every matching app
config; for model names each label is resolved by `get_model` (an
unknown name raises and is not caught); with neither selector the
`FormRunnerError("Nothing to do.")` is raised. -/
def select_models (env : BatchEnv)
    (app_labels model_names : Option (List String)) :
    Except String (List String) :=
  if truthyList app_labels then
    .ok (env.app_configs.foldl
      (fun acc cfg =>
        if (app_labels.getD []).contains cfg.1 then cfg.2 else acc) [])
  else if truthyList model_names then
    (model_names.getD []).mapM (fun n =>
      match env.get_model n with
      | some lbl => .ok lbl
      | none => .error ("LookupError: " ++ n))
  else .error "Nothing to do."

/-- The final loop of `run_form_runners`: run each selected pair,
catching `AttributeError` and `FieldError` (recorded as the printed
message) and continuing; any other exception propagates.  The result
lists each processed label with the caught error, if any. -/
def batchLoop (env : BatchEnv) :
    List (String × String) → Except String (List (String × Option String))
  | [] => .ok []
  | (form, lbl) :: rest =>
    match env.run_outcome form lbl with
    | .ok => (batchLoop env rest).map (fun res => (lbl, none) :: res)
    | .attrError msg =>
      (batchLoop env rest).map
        (fun res => (lbl, some (msg ++ ". See " ++ lbl ++ ".")) :: res)
    | .fieldError msg =>
      (batchLoop env rest).map
        (fun res => (lbl, some (msg ++ ". See " ++ lbl ++ ".")) :: res)
    | .other msg => .error msg

/-- `run_form_runners(app_labels, model_names)`. -/
def run_form_runners (env : BatchEnv)
    (app_labels model_names : Option (List String)) :
    Except String (List (String × Option String)) := do
  let models ← select_models env app_labels model_names
  let modelforms := models.filterMap (fun lbl =>
    (env.modelform_registry.lookup lbl).map (fun form => (form, lbl)))
  batchLoop env modelforms

/- ---------- utils.py: get_form_runner_issues ---------- -/

/-- The related-visit argument of `get_form_runner_issues`; its five
key attributes are read with plain attribute access. -/
structure RelatedVisit where
  subject_identifier : Value
  visit_code : Value
  visit_code_sequence : Value
  visit_schedule_name : Value
  schedule_name : Value
  deriving DecidableEq, Repr

/-- `get_form_runner_issues(label_lower, related_visit, panel_name)`:
the filter the issue query applies to the Issue table. -/
def get_form_runner_issues (store : List Issue) (label_lower : String)
    (rv : RelatedVisit) (panel_name : Option String) : List Issue :=
  store.filter (fun i =>
    i.key.subject_identifier = rv.subject_identifier &&
    i.key.label_lower = label_lower &&
    i.key.visit_code = rv.visit_code &&
    i.key.visit_code_sequence = rv.visit_code_sequence &&
    i.key.visit_schedule_name = rv.visit_schedule_name &&
    i.key.schedule_name = rv.schedule_name &&
    i.key.panel_name = panel_name)

/- ---------- key counting for the uniqueness invariant ---------- -/

/-- Number of Issues in the store carrying a given identity key. -/
def countKey (s : List Issue) (k : UniqueOpts) : Nat :=
  (s.filter (fun i => i.key = k)).length

/-- No two Issues coexist with identical identity-key tuples. -/
def NoDupKeys (s : List Issue) : Prop :=
  ∀ k, countKey s k ≤ 1

/- ---------- concrete fixtures ---------- -/

/-- A related visit (`subject_visit`) with the five schedule attributes. -/
def sv0 : SubObj :=
  ⟨100, [("subject_identifier", "S1"), ("visit_code", "1000"),
         ("visit_code_sequence", "0"), ("visit_schedule_name", "vs"),
         ("schedule_name", "sch")]⟩

/-- A stored instance of a weight record whose `weight_kg` is blank. -/
def rec0 : ModelObj :=
  { id := 1
    dict := [("weight_kg", .vStr "")]
    attrs := [("subject_visit", .vObj sv0), ("weight_kg", .vStr "")]
    meta := { label_lower := "myapp.weight", verbose_name := "Weight",
              fields := [] }
    revision := "r1", modified := "m1", user_modified := "u1",
    site := "site1" }

def runner0 : FormRunner :=
  { session_id := 7, session_datetime := "t0", verbose := false,
    extra_formfields := [], exclude_formfields := [] }

/-- A modelform whose validity check always reports the weight error. -/
def validate0 : List (String × Value) → ModelObj → List (String × String) :=
  fun _ _ => [("weight_kg", "<b>Weight</b> is required.")]

/-- A modelform whose validity check reports no errors. -/
def validateNone : List (String × Value) → ModelObj → List (String × String) :=
  fun _ _ => []

/-- The payload `get_form_data` reconstructs for `rec0`. -/
def dataWeight : List (String × Value) :=
  [("weight_kg", .vStr ""), ("subject_visit", .vObj sv0)]

def keyWeight : UniqueOpts :=
  { label_lower := "myapp.weight", panel_name := none,
    verbose_name := "Weight", subject_identifier := .vStr "S1",
    visit_code := .vStr "1000", visit_code_sequence := .vStr "0",
    visit_schedule_name := .vStr "vs", schedule_name := .vStr "sch",
    field_name := "weight_kg" }

/-- The Issue `run` creates for `rec0` under `validate0`. -/
def issueWeight : Issue :=
  { session_id := 7, session_datetime := "t0",
    raw_message := "<b>Weight</b> is required.",
    message := "Weight is required.",
    short_message := "Weight is required.", response := "",
    src_id := 1, src_revision := "r1", src_report_datetime := .vNone,
    src_modified_datetime := "m1", src_user_modified := "u1",
    site := "site1", extra_formfields := "", exclude_formfields := "",
    key := keyWeight }

/-- An Issue with only its identity key of interest. -/
def plainIssue (k : UniqueOpts) : Issue :=
  { session_id := 0, session_datetime := "", raw_message := "",
    message := "", short_message := "", response := "", src_id := 0,
    src_revision := "", src_report_datetime := .vNone,
    src_modified_datetime := "", src_user_modified := "", site := "",
    extra_formfields := "", exclude_formfields := "", key := k }

/-- The identity key of a stale Issue an earlier run left behind for
`rec0`'s field `f1`. -/
def keyStale : UniqueOpts :=
  { keyWeight with field_name := "f1" }

def staleIssue : Issue := plainIssue keyStale

/-- A runner configured with an extra form field the instance lacks. -/
def runnerExtra : FormRunner :=
  { runner0 with extra_formfields := ["height_cm"] }

/-- A foreign-key field declaration whose attribute `rec0` lacks. -/
def fldFk : FieldDecl :=
  ⟨"appointment", .foreignKey, "edc_appointment.appointment"⟩

/-- Two identity keys differing only in `verbose_name`. -/
def keyA : UniqueOpts :=
  { label_lower := "app.m", panel_name := none, verbose_name := "V1",
    subject_identifier := .vStr "S1", visit_code := .vStr "1000",
    visit_code_sequence := .vStr "0", visit_schedule_name := .vStr "vs",
    schedule_name := .vStr "sch", field_name := "f" }

def keyB : UniqueOpts := { keyA with verbose_name := "V2" }

def rv5 : RelatedVisit :=
  ⟨.vStr "S1", .vStr "1000", .vStr "0", .vStr "vs", .vStr "sch"⟩

/-- Members of a many-to-many collection. -/
def subA : SubObj := ⟨11, [("name", "cough")]⟩

def subB : SubObj := ⟨12, [("name", "fever")]⟩

/-- An instance with a declared many-to-many field `symptoms`. -/
def recM2m : ModelObj :=
  { id := 2
    dict := [("comment", .vStr "ok")]
    attrs := [("subject_visit", .vObj sv0),
              ("symptoms", .vList [subA, subB])]
    meta := { label_lower := "myapp.sym", verbose_name := "Sym",
              fields := [⟨"symptoms", .manyToMany, "myapp.symptom"⟩] }
    revision := "r", modified := "m", user_modified := "u", site := "s" }

/-- The payload reconstructed for `recM2m`. -/
def dataM2m : List (String × Value) :=
  [("comment", .vStr "ok"), ("symptoms", .vList [subA, subB]),
   ("subject_visit", .vObj sv0)]

/-- An instance with a genuine scalar field named `screening_id`. -/
def recScr : ModelObj :=
  { id := 3
    dict := [("screening_id", .vStr "ABC"), ("notes", .vStr "n")]
    attrs := [("subject_visit", .vObj sv0),
              ("screening_id", .vStr "ABC"), ("notes", .vStr "n")]
    meta := { label_lower := "myapp.scr", verbose_name := "Scr",
              fields := [⟨"screening_id", .scalar, ""⟩,
                         ⟨"notes", .scalar, ""⟩] }
    revision := "r", modified := "m", user_modified := "u", site := "s" }

/-- The payload reconstructed for `recScr`: `screening_id` is gone. -/
def dataScr : List (String × Value) :=
  [("notes", .vStr "n"), ("subject_visit", .vObj sv0)]

/-- An instance with no `subject_visit` attribute: its own subject
identifier is used instead. -/
def recPlain : ModelObj :=
  { id := 4
    dict := [("f", .vStr "x")]
    attrs := [("subject_identifier", .vStr "S2"), ("f", .vStr "x")]
    meta := { label_lower := "myapp.plain", verbose_name := "Plain",
              fields := [] }
    revision := "r", modified := "m", user_modified := "u", site := "s" }

/-- A batch environment whose first record type fails with an
`AttributeError` while the second succeeds. -/
def envC8 : BatchEnv :=
  { app_configs := []
    get_model := fun _ => none
    modelform_registry := []
    run_outcome := fun _ lbl =>
      if lbl = "app.m1" then .attrError "boom" else .ok }

def pairsC8 : List (String × String) :=
  [("FormA", "app.m1"), ("FormB", "app.m2")]

/-- A batch environment with two installed apps, both selected. -/
def envC9 : BatchEnv :=
  { app_configs := [("app_one", ["app_one.m1"]),
                    ("app_two", ["app_two.m1", "app_two.m2"])]
    get_model := fun _ => none
    modelform_registry := []
    run_outcome := fun _ _ => .ok }

/- ==================== helper lemmas ==================== -/

theorem lookup_map_replace (l : List (String × Value)) (k : String) (v : Value)
    (h : l.any (fun kv => kv.1 = k) = true) :
    (l.map (fun kv => if kv.1 = k then (k, v) else kv)).lookup k = some v := by
  induction l with
  | nil => simp at h
  | cons kv rest ih =>
    obtain ⟨a, b⟩ := kv
    by_cases hk : a = k
    · subst hk
      simp [List.lookup_cons]
    · simp only [List.map_cons]
      rw [show (if (a, b).1 = k then (k, v) else (a, b)) = (a, b) from if_neg hk]
      rw [List.lookup_cons]
      have hb : (k == a) = false := beq_false_of_ne (Ne.symm hk)
      rw [hb]
      simp only [List.any_cons] at h
      exact ih (by simpa [hk] using h)

theorem lookup_append_not_found (l : List (String × Value)) (k : String) (v : Value)
    (h : l.any (fun kv => kv.1 = k) = false) :
    (l ++ [(k, v)]).lookup k = some v := by
  induction l with
  | nil => simp [List.lookup_cons]
  | cons kv rest ih =>
    obtain ⟨a, b⟩ := kv
    simp only [List.any_cons, Bool.or_eq_false_iff] at h
    have hk : ¬ a = k := by simpa using h.1
    rw [List.cons_append, List.lookup_cons]
    have hb : (k == a) = false := beq_false_of_ne (Ne.symm hk)
    rw [hb]
    exact ih h.2

theorem lookup_updateAssoc_self (l : List (String × Value)) (k : String) (v : Value) :
    (updateAssoc l k v).lookup k = some v := by
  unfold updateAssoc
  split
  · exact lookup_map_replace l k v (by assumption)
  · exact lookup_append_not_found l k v (by rename_i h; exact Bool.eq_false_iff.2 h ▸ rfl)

theorem lookup_map_replace_ne (l : List (String × Value)) (k k' : String) (v : Value)
    (hne : k' ≠ k) :
    (l.map (fun kv => if kv.1 = k then (k, v) else kv)).lookup k' = l.lookup k' := by
  induction l with
  | nil => simp
  | cons kv rest ih =>
    obtain ⟨a, b⟩ := kv
    by_cases hk : a = k
    · rw [List.map_cons,
        show (if (a, b).1 = k then (k, v) else (a, b)) = (k, v) from if_pos hk]
      rw [List.lookup_cons, List.lookup_cons]
      rw [beq_false_of_ne hne, beq_false_of_ne (fun h => hne (h.trans hk))]
      exact ih
    · rw [List.map_cons,
        show (if (a, b).1 = k then (k, v) else (a, b)) = (a, b) from if_neg hk]
      rw [List.lookup_cons, List.lookup_cons]
      cases hc : (k' == a) with
      | true => rfl
      | false => exact ih

theorem lookup_append_single_ne (l : List (String × Value)) (k k' : String) (v : Value)
    (hne : k' ≠ k) :
    (l ++ [(k, v)]).lookup k' = l.lookup k' := by
  induction l with
  | nil => simp [List.lookup_cons, beq_false_of_ne hne]
  | cons kv rest ih =>
    obtain ⟨a, b⟩ := kv
    rw [List.cons_append, List.lookup_cons, List.lookup_cons]
    cases hc : (k' == a) with
    | true => rfl
    | false => exact ih

theorem lookup_updateAssoc_ne (l : List (String × Value)) (k k' : String) (v : Value)
    (hne : k' ≠ k) :
    (updateAssoc l k v).lookup k' = l.lookup k' := by
  unfold updateAssoc
  split
  · exact lookup_map_replace_ne l k k' v hne
  · exact lookup_append_single_ne l k k' v hne

theorem countKey_append_single (s : List Issue) (i : Issue) (k : UniqueOpts) :
    countKey (s ++ [i]) k = countKey s k + (if i.key = k then 1 else 0) := by
  simp only [countKey, List.filter_append, List.length_append]
  congr 1
  by_cases h : i.key = k
  · simp [h]
  · simp [h]

theorem countKey_delete_self (s : List Issue) (key : UniqueOpts) :
    countKey (List.filter (fun i => !(i.key = key)) s) key = 0 := by
  induction s with
  | nil => rfl
  | cons i rest ih =>
    rw [List.filter_cons]
    by_cases h1 : i.key = key
    · rw [if_neg (by simp [h1])]
      exact ih
    · rw [if_pos (by simp [h1])]
      simp only [countKey, List.filter_cons]
      rw [if_neg (by simp [h1])]
      exact ih

theorem countKey_delete_ne (s : List Issue) (key k : UniqueOpts) (h : k ≠ key) :
    countKey (List.filter (fun i => !(i.key = key)) s) k = countKey s k := by
  induction s with
  | nil => rfl
  | cons i rest ih =>
    rw [List.filter_cons]
    by_cases h1 : i.key = key
    · rw [if_neg (by simp [h1])]
      have h2 : ¬ i.key = k := fun hh => h (hh.symm.trans h1)
      calc countKey (List.filter (fun i => !(i.key = key)) rest) k
          = countKey rest k := ih
        _ = countKey (i :: rest) k := by
            simp only [countKey, List.filter_cons]
            rw [if_neg (by simp [h2])]
    · rw [if_pos (by simp [h1])]
      by_cases h2 : i.key = k
      · simp only [countKey, List.filter_cons]
        rw [if_pos (by simp [h2]), if_pos (by simp [h2])]
        simp only [List.length_cons]
        exact congrArg (· + 1) ih
      · simp only [countKey, List.filter_cons]
        rw [if_neg (by simp [h2]), if_neg (by simp [h2])]
        exact ih

theorem ebind_ok {α β : Type} (a : α) (f : α → Except String β) :
    Bind.bind (Except.ok a) f = f a := rfl

theorem ebind_error {α β : Type} (s : String) (f : α → Except String β) :
    Bind.bind (Except.error s : Except String α) f = Except.error s := rfl

theorem write_to_db_key (r : FormRunner) (m : ModelObj) (fld e : String) (issue : Issue)
    (h : write_to_db r m fld e = .ok issue) :
    unique_opts m fld = .ok issue.key := by
  unfold write_to_db at h
  cases hu : unique_opts m fld with
  | error s =>
    rw [hu, ebind_error] at h
    exact absurd h (by simp)
  | ok k =>
    rw [hu, ebind_ok] at h
    simp only [Except.ok.injEq] at h
    subst h
    rfl

theorem processFields_count_or_one (r : FormRunner) (fn pn : Option String) (m : ModelObj) :
    ∀ (flds : List (String × String)) (store store' : List Issue),
    processFields r fn pn m store flds = .ok store' →
    ∀ k, countKey store' k = countKey store k ∨ countKey store' k = 1 := by
  intro flds
  induction flds with
  | nil =>
    intro store store' h k
    unfold processFields at h
    simp only [Except.ok.injEq] at h
    subst h
    left; rfl
  | cons fe rest ih =>
    intro store store' h k
    obtain ⟨fldname, errmsg⟩ := fe
    unfold processFields at h
    by_cases hp : panelSkip pn m = true
    · rw [if_pos hp] at h
      exact ih store store' h k
    · rw [if_neg hp] at h
      by_cases hf : fieldSkip fn fldname = true
      · rw [if_pos hf] at h
        exact ih store store' h k
      · rw [if_neg hf] at h
        cases hu : unique_opts m fldname with
        | error s => rw [hu, ebind_error] at h; exact absurd h (by simp)
        | ok key =>
          rw [hu, ebind_ok] at h
          cases hw : write_to_db r m fldname errmsg with
          | error s => rw [hw, ebind_error] at h; exact absurd h (by simp)
          | ok issue =>
            rw [hw, ebind_ok] at h
            have hkey : issue.key = key := by
              have h2 := write_to_db_key r m fldname errmsg issue hw
              rw [hu] at h2
              injection h2 with h2
              exact h2.symm
            have hnew := ih _ store' h k
            by_cases hk : k = key
            · subst hk
              have hone : countKey (List.filter (fun i => !(i.key = k)) store ++ [issue]) k = 1 := by
                rw [countKey_append_single, countKey_delete_self]
                rw [if_pos hkey]
              rcases hnew with h3 | h3
              · right; rw [h3, hone]
              · right; exact h3
            · have hsame : countKey (List.filter (fun i => !(i.key = key)) store ++ [issue]) k
                  = countKey store k := by
                rw [countKey_append_single, countKey_delete_ne store key k hk]
                rw [if_neg (fun hh => hk (hkey ▸ hh).symm )]
                rfl
              rcases hnew with h3 | h3
              · left; rw [h3, hsame]
              · right; exact h3



theorem processFields_count_mem (r : FormRunner) (fn pn : Option String) (m : ModelObj) :
    ∀ (flds : List (String × String)) (store store' : List Issue)
      (fld e : String) (k : UniqueOpts),
    (fld, e) ∈ flds →
    panelSkip pn m = false →
    fieldSkip fn fld = false →
    unique_opts m fld = .ok k →
    processFields r fn pn m store flds = .ok store' →
    countKey store' k = 1 := by
  intro flds
  induction flds with
  | nil =>
    intro store store' fld e k hmem
    simp at hmem
  | cons fe rest ih =>
    intro store store' fld e k hmem hp hf hu h
    obtain ⟨fldname, errmsg⟩ := fe
    unfold processFields at h
    rw [if_neg (by simp [hp])] at h
    rcases List.mem_cons.mp hmem with heq | hmem'
    · have h1 : fld = fldname := congrArg Prod.fst heq
      have h2 : e = errmsg := congrArg Prod.snd heq
      subst h1
      subst h2
      rw [if_neg (by simp [hf])] at h
      rw [hu, ebind_ok] at h
      cases hw : write_to_db r m fld e with
      | error s => rw [hw, ebind_error] at h; exact absurd h (by simp)
      | ok issue =>
        rw [hw, ebind_ok] at h
        have hkey : issue.key = k := by
          have h3 := write_to_db_key r m fld e issue hw
          rw [hu] at h3
          injection h3 with h3
          exact h3.symm
        have hone : countKey (List.filter (fun i => !(i.key = k)) store ++ [issue]) k = 1 := by
          rw [countKey_append_single, countKey_delete_self]
          rw [if_pos hkey]
        rcases processFields_count_or_one r fn pn m rest _ store' h k with h3 | h3
        · rw [h3, hone]
        · exact h3
    · by_cases hfs : fieldSkip fn fldname = true
      · rw [if_pos hfs] at h
        exact ih store store' fld e k hmem' hp hf hu h
      · rw [if_neg hfs] at h
        cases hu2 : unique_opts m fldname with
        | error s => rw [hu2, ebind_error] at h; exact absurd h (by simp)
        | ok key2 =>
          rw [hu2, ebind_ok] at h
          cases hw2 : write_to_db r m fldname errmsg with
          | error s => rw [hw2, ebind_error] at h; exact absurd h (by simp)
          | ok issue2 =>
            rw [hw2, ebind_ok] at h
            exact ih _ store' fld e k hmem' hp hf hu h



theorem processRecord_count_or_one (db : Db)
    (validate : List (String × Value) → ModelObj → List (String × String))
    (r : FormRunner) (fn pn : Option String) (store store' : List Issue)
    (m : ModelObj)
    (h : processRecord db validate r fn pn store m = .ok store') :
    ∀ k, countKey store' k = countKey store k ∨ countKey store' k = 1 := by
  unfold processRecord at h
  cases hd : get_form_data db r m with
  | error s => rw [hd, ebind_error] at h; exact absurd h (by simp)
  | ok data =>
    rw [hd, ebind_ok] at h
    by_cases he : ((validate data m).filter
        (fun kv => !(r.exclude_formfields.contains kv.1))).isEmpty = true
    · rw [if_pos he] at h
      simp only [Except.ok.injEq] at h
      subst h
      intro k; left; rfl
    · rw [if_neg he] at h
      exact fun k => processFields_count_or_one r fn pn m _ store store' h k

theorem run_count_or_one (db : Db)
    (validate : List (String × Value) → ModelObj → List (String × String))
    (r : FormRunner) (fn pn : Option String) :
    ∀ (recs : List ModelObj) (store store' : List Issue),
    run db validate r fn pn store recs = .ok store' →
    ∀ k, countKey store' k = countKey store k ∨ countKey store' k = 1 := by
  intro recs
  induction recs with
  | nil =>
    intro store store' h k
    unfold run at h
    simp only [Except.ok.injEq] at h
    subst h
    left; rfl
  | cons m rest ih =>
    intro store store' h k
    unfold run at h
    cases hpr : processRecord db validate r fn pn store m with
    | error s => rw [hpr, ebind_error] at h; exact absurd h (by simp)
    | ok store1 =>
      rw [hpr, ebind_ok] at h
      rcases ih store1 store' h k with h3 | h3
      · rcases processRecord_count_or_one db validate r fn pn store store1 m hpr k with h4 | h4
        · left; rw [h3, h4]
        · right; rw [h3, h4]
      · right; exact h3

theorem run_nodup (db : Db)
    (validate : List (String × Value) → ModelObj → List (String × String))
    (r : FormRunner) (fn pn : Option String) (recs : List ModelObj)
    (store store' : List Issue)
    (h : run db validate r fn pn store recs = .ok store')
    (hnd : NoDupKeys store) : NoDupKeys store' := by
  intro k
  rcases run_count_or_one db validate r fn pn recs store store' h k with h3 | h3
  · rw [h3]; exact hnd k
  · rw [h3]

theorem run_count_mem (db : Db)
    (validate : List (String × Value) → ModelObj → List (String × String))
    (r : FormRunner) (fn pn : Option String) :
    ∀ (recs : List ModelObj) (store store' : List Issue) (m : ModelObj)
      (data : List (String × Value)) (fld e : String) (k : UniqueOpts),
    m ∈ recs →
    get_form_data db r m = .ok data →
    (fld, e) ∈ (validate data m).filter
      (fun kv => !(r.exclude_formfields.contains kv.1)) →
    panelSkip pn m = false →
    fieldSkip fn fld = false →
    unique_opts m fld = .ok k →
    run db validate r fn pn store recs = .ok store' →
    countKey store' k = 1 := by
  intro recs
  induction recs with
  | nil =>
    intro store store' m data fld e k hmem
    simp at hmem
  | cons m0 rest ih =>
    intro store store' m data fld e k hmem hd he hp hf hu h
    unfold run at h
    cases hpr : processRecord db validate r fn pn store m0 with
    | error s => rw [hpr, ebind_error] at h; exact absurd h (by simp)
    | ok store1 =>
      rw [hpr, ebind_ok] at h
      rcases List.mem_cons.mp hmem with heq | hmem'
      · subst heq
        have hone : countKey store1 k = 1 := by
          unfold processRecord at hpr
          rw [hd, ebind_ok] at hpr
          have hne : ((validate data m).filter
              (fun kv => !(r.exclude_formfields.contains kv.1))) ≠ [] :=
            List.ne_nil_of_mem he
          rw [if_neg (by simpa [List.isEmpty_iff] using hne)] at hpr
          exact processFields_count_mem r fn pn m _ store store1 fld e k he hp hf hu hpr
        rcases run_count_or_one db validate r fn pn rest store1 store' h k with h3 | h3
        · rw [h3, hone]
        · exact h3
      · exact ih store1 store' m data fld e k hmem' hd he hp hf hu h

/- ==================== claims ==================== -/

/-- C1 amended: a record with no validation errors under the current
routine is skipped entirely by `run` — no Issue is deleted or created
for it, so Issues left by earlier runs for such a record survive the
run unchanged (delete-before-write happens only for currently erroring
fields). -/
theorem C1_clean_records_leave_store_unchanged (db : Db)
    (validate : List (String × Value) → ModelObj → List (String × String))
    (r : FormRunner) (fn pn : Option String) (store : List Issue)
    (recs : List ModelObj)
    (h : ∀ m ∈ recs, ∃ data, get_form_data db r m = .ok data ∧
        (validate data m).filter (fun kv => !(r.exclude_formfields.contains kv.1)) = []) :
    run db validate r fn pn store recs = .ok store := by
  induction recs with
  | nil => rfl
  | cons m rest ih =>
    obtain ⟨data, hd, he⟩ := h m (List.mem_cons_self m rest)
    have hrec : processRecord db validate r fn pn store m = .ok store := by
      unfold processRecord
      simp only [hd, ebind_ok, he]
      rfl
    unfold run
    rw [hrec, ebind_ok]
    exact ih (fun m' hm' => h m' (List.mem_cons_of_mem m hm'))

/-- C1 witness: the amended theorem applied to the concrete stale-issue
scenario. -/
theorem C1_witness :
    run [] validateNone runner0 none none [staleIssue] [rec0] = .ok [staleIssue] :=
  C1_clean_records_leave_store_unchanged [] validateNone runner0 none none [staleIssue] [rec0]
    (by
      intro m hm
      rw [List.mem_singleton] at hm
      subst hm
      exact ⟨dataWeight, rfl, rfl⟩)

/-- C1 counterexample: `rec0` has no validation errors under the current
routine (`validateNone`), yet after the run the stale Issue recorded for
its field `f1` by an earlier run is still in the store: the delete in
`run` happens only for fields that error in the current run, so stale
Issues of error-free records are never deleted. -/
theorem C1_counterexample :
    run [] validateNone runner0 none none [staleIssue] [rec0] = .ok [staleIssue] ∧
    unique_opts rec0 "f1" = .ok staleIssue.key ∧
    validateNone dataWeight rec0 = [] ∧
    get_form_data [] runner0 rec0 = .ok dataWeight :=
  ⟨rfl, rfl, rfl, rfl⟩

/-- C7: running the revalidator twice with identical inputs and no
data changes leaves, for each erroring (record, field) pair that
passes the filters, exactly one Issue with that identity key after the
second run, and no two Issues ever coexist with identical identity-key
tuples (delete of any Issue with the same key precedes creation). -/
theorem C7_idempotent_unique (db : Db)
    (validate : List (String × Value) → ModelObj → List (String × String))
    (r : FormRunner) (fn pn : Option String) (recs : List ModelObj)
    (s0 s1 s2 : List Issue) (m : ModelObj) (data : List (String × Value))
    (fld e : String) (k : UniqueOpts)
    (h1 : run db validate r fn pn s0 recs = .ok s1)
    (h2 : run db validate r fn pn s1 recs = .ok s2)
    (hm : m ∈ recs)
    (hd : get_form_data db r m = .ok data)
    (he : (fld, e) ∈ (validate data m).filter
      (fun kv => !(r.exclude_formfields.contains kv.1)))
    (hp : panelSkip pn m = false)
    (hf : fieldSkip fn fld = false)
    (hu : unique_opts m fld = .ok k)
    (hnd : NoDupKeys s0) :
    countKey s2 k = 1 ∧ NoDupKeys s2 :=
  ⟨run_count_mem db validate r fn pn recs s1 s2 m data fld e k hm hd he hp hf hu h2,
   run_nodup db validate r fn pn recs s1 s2 h2
     (run_nodup db validate r fn pn recs s0 s1 h1 hnd)⟩

/-- C7 witness: the theorem applied to two identical concrete runs
over `rec0`. -/
theorem C7_witness : countKey [issueWeight] keyWeight = 1 :=
  (C7_idempotent_unique [] validate0 runner0 none none [rec0] [] [issueWeight] [issueWeight]
    rec0 dataWeight "weight_kg" "<b>Weight</b> is required." keyWeight
    rfl rfl (List.mem_singleton.mpr rfl) rfl (by decide) rfl rfl rfl
    (fun _ => Nat.zero_le 1)).1


/-- C2 counterexample: when attribute access for the erroring field
fails, `write_to_db` stores `str(None)`, the four-character string
`"None"`, not the empty string the claim states. -/
theorem C2_counterexample :
    (write_to_db runner0 rec0 "fldX" "m").map Issue.response = .ok "None" ∧
    getattrOpt rec0 "fldX" = none ∧ ("None" : String) ≠ "" :=
  ⟨rfl, rfl, by decide⟩

/-- C2 amended: the `response` stored on a created Issue is the string
form of the record's current value for the field, and is the string
`"None"` (the rendering of Python `None`) when attribute access for
that field fails. -/
theorem C2_response_string_form (r : FormRunner) (m : ModelObj) (fld e : String)
    (issue : Issue) (h : write_to_db r m fld e = .ok issue) :
    (∀ v, getattrOpt m fld = some v → issue.response = pyStr v) ∧
    (getattrOpt m fld = none → issue.response = "None") := by
  unfold write_to_db at h
  cases hu : unique_opts m fld with
  | error s => rw [hu, ebind_error] at h; exact absurd h (by simp)
  | ok k =>
    rw [hu, ebind_ok] at h
    simp only [Except.ok.injEq] at h
    subst h
    constructor
    · intro v hv
      simp [hv]
    · intro hv
      simp [hv, pyStr]

/-- C2 witness: the amended theorem applied to `rec0`, whose
`weight_kg` value is the blank string. -/
theorem C2_witness : issueWeight.response = pyStr (Value.vStr "") :=
  (C2_response_string_form runner0 rec0 "weight_kg" "<b>Weight</b> is required."
    issueWeight rfl).1 (Value.vStr "") rfl

/-- C3: for every persisted Issue, `raw_message` is the HTML-entity-
unescaped full error text, `message` is `raw_message` with HTML tags
stripped, and `short_message` is the first 250 characters of `message`;
in particular the error text `"<b>Weight</b> is required."` yields
exactly the raw, stripped and truncated values the claim lists. -/
theorem C3_messages (r : FormRunner) (m : ModelObj) (fld e : String)
    (issue : Issue) (h : write_to_db r m fld e = .ok issue) :
    issue.raw_message = htmlUnescape e ∧
    issue.message = stripHtmlTags (htmlUnescape e) ∧
    issue.short_message = strTake issue.message 250 ∧
    htmlUnescape "<b>Weight</b> is required." = "<b>Weight</b> is required." ∧
    stripHtmlTags "<b>Weight</b> is required." = "Weight is required." ∧
    strTake "Weight is required." 250 = "Weight is required." := by
  unfold write_to_db at h
  cases hu : unique_opts m fld with
  | error s => rw [hu, ebind_error] at h; exact absurd h (by simp)
  | ok k =>
    rw [hu, ebind_ok] at h
    simp only [Except.ok.injEq] at h
    subst h
    exact ⟨rfl, rfl, rfl, by decide, by decide, by decide⟩

/-- C3 witness: the theorem applied to the concrete weight error. -/
theorem C3_witness :
    issueWeight.raw_message = htmlUnescape "<b>Weight</b> is required." ∧
    issueWeight.message = stripHtmlTags (htmlUnescape "<b>Weight</b> is required.") :=
  ⟨(C3_messages runner0 rec0 "weight_kg" "<b>Weight</b> is required." issueWeight rfl).1,
   (C3_messages runner0 rec0 "weight_kg" "<b>Weight</b> is required." issueWeight rfl).2.1⟩

/-- C4 counterexample: the overlay of a configured extra form field is
a plain `getattr` with no exception handling — on a record lacking the
attribute, `get_form_data` raises and the whole run aborts, so not
every attribute-resolution failure during payload reconstruction is
caught. -/
theorem C4_counterexample :
    runnerExtra.extra_formfields = ["height_cm"] ∧
    getattrOpt rec0 "height_cm" = none ∧
    get_form_data [] runnerExtra rec0 = .error "AttributeError: height_cm" ∧
    run [] validate0 runnerExtra none none [] [rec0] = .error "AttributeError: height_cm" :=
  ⟨rfl, rfl, rfl, rfl⟩

/-- C4 amended: attribute failures while resolving a single-valued
relation are caught and degrade to an absent (`None`) value, and a
missing related-visit reference is caught and degrades to including
the subject identifier instead; but the overlay of a configured extra
form field (and the subject-identifier fallback read itself) is not
guarded and aborts the run on failure. -/
theorem C4_soft_fail_relations (db : Db) (m : ModelObj) (data : List (String × Value))
    (fld : FieldDecl) (v : Value)
    (hs : fld.kind.isSingleRel = true)
    (ha : (getattrOpt m fld.name).bind valueId = none)
    (hsv : getattrOpt m "subject_visit" = none)
    (hsi : getattrOpt m "subject_identifier" = some v) :
    resolveField db m data fld = .ok (updateAssoc data fld.name .vNone) ∧
    resolveVisit m data = .ok (updateAssoc data "subject_identifier" v) := by
  constructor
  · unfold resolveField
    rw [if_pos hs, ha]
  · unfold resolveVisit
    rw [hsv, hsi]

/-- C4 witness: the amended theorem applied to a record lacking the
foreign-key attribute and the related-visit reference. -/
theorem C4_witness :
    resolveField [] recPlain [] fldFk = .ok (updateAssoc [] "appointment" .vNone) ∧
    resolveVisit recPlain [] = .ok (updateAssoc [] "subject_identifier" (.vStr "S2")) :=
  C4_soft_fail_relations [] recPlain [] fldFk (.vStr "S2") rfl rfl rfl rfl

/-- C5 counterexample: two Issues that differ only in `verbose_name`
are both returned by the issue query for a single identity scope —
the query does not constrain `verbose_name`, contrary to the claim
that all identity-key fields except `field_name` are constrained. -/
theorem C5_counterexample :
    get_form_runner_issues [plainIssue keyA, plainIssue keyB] "app.m" rv5 none
      = [plainIssue keyA, plainIssue keyB] ∧
    (plainIssue keyA).key.verbose_name ≠ (plainIssue keyB).key.verbose_name :=
  ⟨rfl, by decide⟩

/-- C5 amended: the issue query returns exactly the Issues matching on
`label_lower`, `panel_name`, `subject_identifier`, `visit_code`,
`visit_code_sequence`, `visit_schedule_name` and `schedule_name` —
all identity-key fields except `field_name` and `verbose_name` — and
performs no writes (it is a pure filter of the store). -/
theorem C5_query_filter (store : List Issue) (ll : String) (rv : RelatedVisit)
    (pn : Option String) (i : Issue) :
    i ∈ get_form_runner_issues store ll rv pn ↔
      i ∈ store ∧
      i.key.subject_identifier = rv.subject_identifier ∧
      i.key.label_lower = ll ∧
      i.key.visit_code = rv.visit_code ∧
      i.key.visit_code_sequence = rv.visit_code_sequence ∧
      i.key.visit_schedule_name = rv.visit_schedule_name ∧
      i.key.schedule_name = rv.schedule_name ∧
      i.key.panel_name = pn := by
  unfold get_form_runner_issues
  rw [List.mem_filter]
  simp [and_assoc]



theorem batchLoop_all_caught (env : BatchEnv) :
    ∀ (pairs : List (String × String)),
    (∀ fo lbl, (fo, lbl) ∈ pairs → ∀ msg, env.run_outcome fo lbl ≠ .other msg) →
    (batchLoop env pairs).map (fun res => res.map Prod.fst) = .ok (pairs.map Prod.snd) := by
  intro pairs
  induction pairs with
  | nil => intro _; rfl
  | cons p rest ih =>
    intro h3
    obtain ⟨fo, lbl⟩ := p
    have hrest := ih (fun fo' lbl' hm msg => h3 fo' lbl' (List.mem_cons_of_mem _ hm) msg)
    unfold batchLoop
    cases ho : env.run_outcome fo lbl with
    | ok =>
      cases hb : batchLoop env rest with
      | error s => rw [hb] at hrest; simp [Except.map] at hrest
      | ok res =>
        rw [hb] at hrest
        simp only [Except.map, Except.ok.injEq] at hrest
        simp [Except.map, hrest]
    | attrError msg =>
      cases hb : batchLoop env rest with
      | error s => rw [hb] at hrest; simp [Except.map] at hrest
      | ok res =>
        rw [hb] at hrest
        simp only [Except.map, Except.ok.injEq] at hrest
        simp [Except.map, hrest]
    | fieldError msg =>
      cases hb : batchLoop env rest with
      | error s => rw [hb] at hrest; simp [Except.map] at hrest
      | ok res =>
        rw [hb] at hrest
        simp only [Except.map, Except.ok.injEq] at hrest
        simp [Except.map, hrest]
    | other msg =>
      exact absurd ho (h3 fo lbl (List.mem_cons_self _ _) msg)

/-- C8: invoking the batch entry point with neither an app-label nor a
model-name selector (both falsy) fails immediately with the
`"Nothing to do."` configuration error before any record type is
processed; and when every selected record type's run raises at most
`AttributeError`/`FieldError`, the batch loop catches them and still
processes every selected type in order. -/
theorem C8_batch_errors (env : BatchEnv) (al mn : Option (List String))
    (pairs : List (String × String))
    (h1 : truthyList al = false) (h2 : truthyList mn = false)
    (h3 : ∀ fo lbl, (fo, lbl) ∈ pairs → ∀ msg, env.run_outcome fo lbl ≠ .other msg) :
    run_form_runners env al mn = Except.error "Nothing to do." ∧
    (batchLoop env pairs).map (fun res => res.map Prod.fst) = .ok (pairs.map Prod.snd) := by
  constructor
  · unfold run_form_runners select_models
    rw [if_neg (by simp [h1]), if_neg (by simp [h2])]
    rfl
  · exact batchLoop_all_caught env pairs h3

/-- C8 witness: the theorem applied to the concrete environment whose
first record type raises a caught `AttributeError`. -/
theorem C8_witness :
    run_form_runners envC8 none none = Except.error "Nothing to do." ∧
    (batchLoop envC8 pairsC8).map (fun res => res.map Prod.fst)
      = .ok ["app.m1", "app.m2"] :=
  C8_batch_errors envC8 none none pairsC8 rfl rfl
    (by
      intro fo lbl hm msg h
      simp only [pairsC8, List.mem_cons, List.not_mem_nil, or_false,
        Prod.mk.injEq] at hm
      rcases hm with ⟨h1, h2⟩ | ⟨h1, h2⟩ <;> subst h1 <;> subst h2 <;>
        simp [envC8] at h)

theorem foldl_reassign_no_match (labels : List String) :
    ∀ (cfgs : List (String × List String)) (acc : List String),
    (∀ c ∈ cfgs, labels.contains c.1 = false) →
    cfgs.foldl (fun acc cfg => if labels.contains cfg.1 then cfg.2 else acc) acc = acc := by
  intro cfgs
  induction cfgs with
  | nil => intro acc _; rfl
  | cons c rest ih =>
    intro acc h
    have hc := h c (List.mem_cons_self _ _)
    rw [List.foldl_cons]
    rw [if_neg (by rw [hc]; exact Bool.false_ne_true)]
    exact ih acc (fun c' hc' => h c' (List.mem_cons_of_mem _ hc'))

/-- C9: when two or more given app labels each match an installed
application, the working model list is reassigned, not accumulated,
for each matching application, so only the models of the last matching
application are selected for revalidation. -/
theorem C9_last_matching_app_wins (env : BatchEnv) (mn : Option (List String))
    (labels : List String) (l1 l2 l3 : List (String × List String))
    (c1 c2 : String × List String)
    (hcfg : env.app_configs = l1 ++ c1 :: (l2 ++ c2 :: l3))
    (h1 : labels.contains c1.1 = true)
    (h2 : labels.contains c2.1 = true)
    (h3 : ∀ c ∈ l3, labels.contains c.1 = false)
    (ht : labels ≠ []) :
    select_models env (some labels) mn = .ok c2.2 := by
  have htr : truthyList (some labels) = true := by
    cases labels with
    | nil => exact absurd rfl ht
    | cons a as => rfl
  unfold select_models
  rw [if_pos (by simp [htr])]
  simp only [Option.getD_some]
  rw [hcfg]
  simp only [List.foldl_append, List.foldl_cons]
  rw [if_pos h2]
  rw [foldl_reassign_no_match labels l3 c2.2 h3]

/-- C9 witness: the theorem applied to the concrete two-app
environment. -/
theorem C9_witness :
    select_models envC9 (some ["app_one", "app_two"]) none
      = .ok ["app_two.m1", "app_two.m2"] :=
  C9_last_matching_app_wins envC9 none ["app_one", "app_two"] [] [] []
    ("app_one", ["app_one.m1"]) ("app_two", ["app_two.m1", "app_two.m2"])
    rfl rfl rfl (by intro c hc; simp at hc) (by decide)



theorem resolveFields_cons (db : Db) (m : ModelObj) (data : List (String × Value))
    (fld : FieldDecl) (rest : List FieldDecl) :
    resolveFields db m data (fld :: rest) =
      Bind.bind (resolveField db m data fld) (fun d => resolveFields db m d rest) := rfl

theorem resolveFields_append (db : Db) (m : ModelObj) :
    ∀ (l1 l2 : List FieldDecl) (data : List (String × Value)),
    resolveFields db m data (l1 ++ l2) =
      Bind.bind (resolveFields db m data l1) (fun d => resolveFields db m d l2) := by
  intro l1
  induction l1 with
  | nil => intro l2 data; rfl
  | cons fld rest ih =>
    intro l2 data
    rw [List.cons_append, resolveFields_cons, resolveFields_cons]
    cases hf : resolveField db m data fld with
    | error s => rw [ebind_error, ebind_error, ebind_error]
    | ok d' => rw [ebind_ok, ebind_ok]; exact ih l2 d'

theorem resolveField_m2m (db : Db) (m : ModelObj) (data : List (String × Value))
    (fld : FieldDecl) (objs : List SubObj)
    (hk : fld.kind = .manyToMany)
    (ha : getattrOpt m fld.name = some (.vList objs)) :
    resolveField db m data fld = .ok (updateAssoc data fld.name (.vList objs)) := by
  unfold resolveField
  rw [if_neg (by rw [hk]; exact fun h => absurd h (by decide))]
  rw [if_pos hk, ha]

theorem resolveField_lookup_preserved (db : Db) (m : ModelObj)
    (data : List (String × Value)) (fld : FieldDecl)
    (data' : List (String × Value)) (nm : String)
    (h : resolveField db m data fld = .ok data')
    (hn : fld.name = nm → fld.kind = .scalar) :
    data'.lookup nm = data.lookup nm := by
  unfold resolveField at h
  by_cases hk : fld.kind.isSingleRel = true
  · rw [if_pos hk] at h
    have hne : nm ≠ fld.name := by
      intro he
      have hs := hn he.symm
      rw [hs] at hk
      exact absurd hk (by decide)
    split at h
    · simp only [Except.ok.injEq] at h
      subst h
      exact lookup_updateAssoc_ne data fld.name nm _ hne
    · split at h
      · simp only [Except.ok.injEq] at h
        subst h
        exact lookup_updateAssoc_ne data fld.name nm _ hne
      · exact absurd h (by simp)
  · rw [if_neg hk] at h
    by_cases hm2 : fld.kind = .manyToMany
    · rw [if_pos hm2] at h
      have hne : nm ≠ fld.name := by
        intro he
        have hs := hn he.symm
        rw [hs] at hm2
        exact absurd hm2 (by decide)
      split at h
      · simp only [Except.ok.injEq] at h
        subst h
        exact lookup_updateAssoc_ne data fld.name nm _ hne
      · exact absurd h (by simp)
    · rw [if_neg hm2] at h
      simp only [Except.ok.injEq] at h
      subst h
      rfl

theorem resolveFields_lookup_preserved (db : Db) (m : ModelObj) :
    ∀ (flds : List FieldDecl) (data data' : List (String × Value)) (nm : String),
    (∀ fld ∈ flds, fld.name = nm → fld.kind = .scalar) →
    resolveFields db m data flds = .ok data' →
    data'.lookup nm = data.lookup nm := by
  intro flds
  induction flds with
  | nil =>
    intro data data' nm _ h
    unfold resolveFields at h
    simp only [Except.ok.injEq] at h
    subst h
    rfl
  | cons fld rest ih =>
    intro data data' nm hs h
    rw [resolveFields_cons] at h
    cases hf : resolveField db m data fld with
    | error s => rw [hf, ebind_error] at h; exact absurd h (by simp)
    | ok d1 =>
      rw [hf, ebind_ok] at h
      calc data'.lookup nm
          = d1.lookup nm :=
            ih d1 data' nm (fun g hg => hs g (List.mem_cons_of_mem _ hg)) h
        _ = data.lookup nm :=
            resolveField_lookup_preserved db m data fld d1 nm hf
              (hs fld (List.mem_cons_self _ _))

theorem resolveVisit_lookup_preserved (m : ModelObj)
    (data data' : List (String × Value)) (nm : String)
    (h : resolveVisit m data = .ok data')
    (h1 : nm ≠ "subject_visit") (h2 : nm ≠ "subject_identifier") :
    data'.lookup nm = data.lookup nm := by
  unfold resolveVisit at h
  cases hsv : getattrOpt m "subject_visit" with
  | some v =>
    rw [hsv] at h
    simp only [Except.ok.injEq] at h
    subst h
    exact lookup_updateAssoc_ne data "subject_visit" nm v h1
  | none =>
    rw [hsv] at h
    cases hsi : getattrOpt m "subject_identifier" with
    | some v =>
      rw [hsi] at h
      simp only [Except.ok.injEq] at h
      subst h
      exact lookup_updateAssoc_ne data "subject_identifier" nm v h2
    | none => rw [hsi] at h; exact absurd h (by simp)

theorem resolveExtras_lookup_preserved (m : ModelObj) :
    ∀ (extras : List String) (data data' : List (String × Value)) (nm : String),
    nm ∉ extras →
    resolveExtras m data extras = .ok data' →
    data'.lookup nm = data.lookup nm := by
  intro extras
  induction extras with
  | nil =>
    intro data data' nm _ h
    unfold resolveExtras at h
    simp only [Except.ok.injEq] at h
    subst h
    rfl
  | cons f rest ih =>
    intro data data' nm hmem h
    unfold resolveExtras at h
    cases hv : getattrOpt m f with
    | none => rw [hv] at h; exact absurd h (by simp)
    | some v =>
      rw [hv] at h
      have hne : nm ≠ f := fun he => hmem (he ▸ List.mem_cons_self f rest)
      calc data'.lookup nm
          = (updateAssoc data f v).lookup nm :=
            ih _ data' nm (fun hm => hmem (List.mem_cons_of_mem _ hm)) h
        _ = data.lookup nm := lookup_updateAssoc_ne data f nm v hne

theorem resolveExtras_lookup_set (m : ModelObj) :
    ∀ (l1 l2 : List String) (data data' : List (String × Value)) (nm : String) (v : Value),
    nm ∉ l2 →
    getattrOpt m nm = some v →
    resolveExtras m data (l1 ++ nm :: l2) = .ok data' →
    data'.lookup nm = some v := by
  intro l1
  induction l1 with
  | nil =>
    intro l2 data data' nm v hnl2 hv h
    rw [List.nil_append] at h
    unfold resolveExtras at h
    rw [hv] at h
    rw [resolveExtras_lookup_preserved m l2 _ data' nm hnl2 h]
    exact lookup_updateAssoc_self data nm v
  | cons f rest ih =>
    intro l2 data data' nm v hnl2 hv h
    rw [List.cons_append] at h
    unfold resolveExtras at h
    cases hw : getattrOpt m f with
    | none => rw [hw] at h; exact absurd h (by simp)
    | some w =>
      rw [hw] at h
      exact ih l2 _ data' nm v hnl2 hv h

theorem lookup_initialData_none (m : ModelObj) (nm : String)
    (h : strStartsWith nm "_" = true ∨ strEndsWith nm "_id" = true) :
    (initialData m).lookup nm = none := by
  unfold initialData
  induction m.dict with
  | nil => rfl
  | cons kv rest ih =>
    obtain ⟨a, b⟩ := kv
    rw [List.filter_cons]
    by_cases ha : a = nm
    · subst ha
      rcases h with h1 | h1
      · rw [if_neg (by simp [h1])]
        exact ih
      · rw [if_neg (by simp [h1])]
        exact ih
    · by_cases hp : (!strStartsWith a "_" && !strEndsWith a "_id") = true
      · rw [if_pos (by simpa using hp)]
        rw [List.lookup_cons]
        rw [beq_false_of_ne (fun he => ha he.symm)]
        exact ih
      · rw [if_neg (by simpa using hp)]
        exact ih



/-- C6: a declared multi-valued relational field present on the
instance is bound in the reconstructed payload to the complete related
collection held by its manager attribute. -/
theorem C6_m2m_materialized (db : Db) (r : FormRunner) (m : ModelObj)
    (data : List (String × Value)) (l1 l2 : List FieldDecl) (fld : FieldDecl)
    (objs : List SubObj)
    (hf : m.meta.fields = l1 ++ fld :: l2)
    (hk : fld.kind = .manyToMany)
    (ha : getattrOpt m fld.name = some (.vList objs))
    (h2 : ∀ g ∈ l2, g.name = fld.name → g.kind = .scalar)
    (hsv : fld.name ≠ "subject_visit")
    (hsi : fld.name ≠ "subject_identifier")
    (hex : fld.name ∉ r.extra_formfields)
    (hok : get_form_data db r m = .ok data) :
    data.lookup fld.name = some (.vList objs) := by
  unfold get_form_data at hok
  rw [hf, resolveFields_append] at hok
  cases hA : resolveFields db m (initialData m) l1 with
  | error s => rw [hA, ebind_error, ebind_error] at hok; exact absurd hok (by simp)
  | ok dA =>
    rw [hA, ebind_ok] at hok
    rw [resolveFields_cons, resolveField_m2m db m dA fld objs hk ha, ebind_ok] at hok
    cases hB : resolveFields db m (updateAssoc dA fld.name (.vList objs)) l2 with
    | error s => rw [hB, ebind_error] at hok; exact absurd hok (by simp)
    | ok d1 =>
      rw [hB, ebind_ok] at hok
      cases hV : resolveVisit m d1 with
      | error s => rw [hV, ebind_error] at hok; exact absurd hok (by simp)
      | ok d2 =>
        rw [hV, ebind_ok] at hok
        calc data.lookup fld.name
            = d2.lookup fld.name :=
              resolveExtras_lookup_preserved m r.extra_formfields d2 data fld.name hex hok
          _ = d1.lookup fld.name :=
              resolveVisit_lookup_preserved m d1 d2 fld.name hV hsv hsi
          _ = (updateAssoc dA fld.name (.vList objs)).lookup fld.name :=
              resolveFields_lookup_preserved db m l2 _ d1 fld.name h2 hB
          _ = some (.vList objs) := lookup_updateAssoc_self dA fld.name _

/-- C6 witness: the theorem applied to the concrete `symptoms`
many-to-many collection. -/
theorem C6_witness :
    dataM2m.lookup "symptoms" = some (Value.vList [subA, subB]) :=
  C6_m2m_materialized [] runner0 recM2m dataM2m [] []
    ⟨"symptoms", .manyToMany, "myapp.symptom"⟩ [subA, subB]
    rfl rfl rfl (fun g hg => absurd hg (List.not_mem_nil g))
    (by decide) (by decide) (List.not_mem_nil _) rfl

/-- C10: every instance attribute whose name starts with `_` or ends
with `_id` is omitted from the initial payload, even when it is a
genuine scalar field of the record (its declared fields with that name
being non-relational); the field reaches the payload only when it is
also listed as an extra form field. -/
theorem C10_internal_names_omitted (db : Db) (r : FormRunner) (m : ModelObj)
    (data : List (String × Value)) (nm : String)
    (hnm : strStartsWith nm "_" = true ∨ strEndsWith nm "_id" = true)
    (hsc : ∀ fld ∈ m.meta.fields, fld.name = nm → fld.kind = .scalar)
    (hsv : nm ≠ "subject_visit") (hsi : nm ≠ "subject_identifier")
    (hok : get_form_data db r m = .ok data) :
    (nm ∉ r.extra_formfields → data.lookup nm = none) ∧
    (∀ (v : Value) (l1 l2 : List String), r.extra_formfields = l1 ++ nm :: l2 →
      nm ∉ l2 → getattrOpt m nm = some v → data.lookup nm = some v) := by
  unfold get_form_data at hok
  cases hA : resolveFields db m (initialData m) m.meta.fields with
  | error s => rw [hA, ebind_error] at hok; exact absurd hok (by simp)
  | ok d1 =>
    rw [hA, ebind_ok] at hok
    cases hV : resolveVisit m d1 with
    | error s => rw [hV, ebind_error] at hok; exact absurd hok (by simp)
    | ok d2 =>
      rw [hV, ebind_ok] at hok
      have hd2 : d2.lookup nm = none := by
        rw [resolveVisit_lookup_preserved m d1 d2 nm hV hsv hsi]
        rw [resolveFields_lookup_preserved db m m.meta.fields (initialData m) d1 nm hsc hA]
        exact lookup_initialData_none m nm hnm
      constructor
      · intro hex
        rw [resolveExtras_lookup_preserved m r.extra_formfields d2 data nm hex hok]
        exact hd2
      · intro v l1 l2 hsplit hnl2 hv
        rw [hsplit] at hok
        exact resolveExtras_lookup_set m l1 l2 d2 data nm v hnl2 hv hok

/-- C10 witness: the theorem applied to the concrete record with the
scalar field `screening_id`. -/
theorem C10_witness : dataScr.lookup "screening_id" = none :=
  (C10_internal_names_omitted [] runner0 recScr dataScr "screening_id"
    (Or.inr (by decide))
    (by
      intro fld hf _
      simp only [recScr, List.mem_cons, List.not_mem_nil, or_false] at hf
      rcases hf with rfl | rfl <;> rfl)
    (by decide) (by decide) rfl).1 (List.not_mem_nil _)

end EdcFormRunners
